import Mathlib

/-
Verification of the vehicle-tracking service (tracking-svc).

Shallow embedding of the core paths of the repository:
  - the Filter Builder / query path
    (internal/services/tracking_service.go `MongoTrackingService.FindTrackingData`,
     internal/repositories `TrackingFilter.Build`,
     `MongoTackingRepository.FindTrackingData`),
  - the ingestion consumer (`App.Consume`),
  - the domain service write path (`MongoTrackingService.TrackVehicle`),
  - the HTTP query handler (`V1TrackingHandler.FindTrackingData`).

Modelling conventions:
  - Go `int` is modelled as unbounded `Int` (the `strconv.Atoi` 64-bit range
    check is kept; wraparound of the skip product for astronomically large
    pages is not modelled).
  - Go `float64` values reaching the filter are modelled exactly as `Rat`;
    `strconv.ParseFloat` is modelled over the decimal, exponent and
    inf/nan forms (hex-float syntax, digit-separating underscores and
    overflow/underflow range errors are not modelled).
  - fallible code returns `Except Err`.
-/

/-- Error taxonomy of the embedded code paths. -/
inductive Err where
  | invalidID
  | invalidStatus (s : String)
  | invalidFuelCondition (s : String)
  | numSyntax (s : String)
  | decodeMismatch (key : String)
  | unsupportedJSONValue
  | validation (s : String)
  | storage (s : String)
  deriving DecidableEq

/-- `Except.isOk` as a plain definition (avoids depending on library helpers). -/
def isOkE {ε α : Type} : Except ε α → Bool
  | Except.ok _ => true
  | Except.error _ => false

/-- `Except.isError` as a plain definition. -/
def isErrE {ε α : Type} : Except ε α → Bool
  | Except.ok _ => false
  | Except.error _ => true

/-- Numeric value of a list of ASCII decimal digits. -/
def digitsToNat (l : List Char) : Nat :=
  l.foldl (fun acc c => acc * 10 + (c.toNat - 48)) 0

/-- Embedding of Go `strconv.Atoi` (= `ParseInt(s, 10, 0)` on a 64-bit
platform): an optional single sign followed by one or more ASCII decimal
digits, rejecting anything else and values outside the `int64` range. -/
def goAtoi (s : String) : Option Int :=
  let cs := s.data
  let signRest : Int × List Char :=
    match cs with
    | '+' :: r => (1, r)
    | '-' :: r => (-1, r)
    | r => (1, r)
  let sign := signRest.1
  let rest := signRest.2
  if rest ≠ [] ∧ rest.all Char.isDigit then
    let v : Int := sign * (digitsToNat rest : Int)
    if v < -(2 ^ 63) ∨ 2 ^ 63 - 1 < v then none else some v
  else none

/-- A Go `float64` as it can appear in the service's intermediate
`map[string]any`: a finite value (modelled exactly), an infinity, or NaN. -/
inductive GoFloat where
  | finite (q : Rat)
  | inf (neg : Bool)
  | nan
  deriving DecidableEq

/-- Split a list of chars into its leading run of decimal digits and the rest. -/
def takeDigits : List Char → List Char × List Char
  | [] => ([], [])
  | c :: r =>
    if c.isDigit then
      let p := takeDigits r
      (c :: p.1, p.2)
    else ([], c :: r)

/-- Parse the decimal mantissa `digits [. digits]` (at least one digit in
total); returns (numerator digits, number of fractional digits, rest). -/
def parseMantissa (cs : List Char) : Option (Nat × Nat × List Char) :=
  let ip := takeDigits cs
  match ip.2 with
  | '.' :: r =>
    let fp := takeDigits r
    if ip.1 = [] ∧ fp.1 = [] then none
    else some (digitsToNat (ip.1 ++ fp.1), fp.1.length, fp.2)
  | rest =>
    if ip.1 = [] then none else some (digitsToNat ip.1, 0, rest)

/-- Parse an optional exponent part `(e|E) [sign] digits`; the whole
remainder must be consumed. -/
def parseExponent (cs : List Char) : Option Int :=
  match cs with
  | [] => some 0
  | e :: r =>
    if e = 'e' ∨ e = 'E' then
      let signRest : Int × List Char :=
        match r with
        | '+' :: r2 => (1, r2)
        | '-' :: r2 => (-1, r2)
        | r2 => (1, r2)
      if signRest.2 ≠ [] ∧ signRest.2.all Char.isDigit then
        some (signRest.1 * (digitsToNat signRest.2 : Int))
      else none
    else none

/-- The rational `m × 10 ^ e` for a natural mantissa and integer exponent. -/
def decimalValue (m : Nat) (e : Int) : Rat :=
  Rat.divInt ((m : Int) * 10 ^ e.toNat) (10 ^ (-e).toNat)

/-- ASCII lower-casing of a character list. -/
def toLowerL (l : List Char) : List Char := l.map Char.toLower

/-- Lower-case string comparison helper for the special float spellings. -/
def lowerEq (cs : List Char) (w : String) : Bool :=
  toLowerL cs = w.data

/-- Embedding of Go `strconv.ParseFloat(s, 64)`: an optional sign followed by
"inf"/"infinity" (case-insensitive), the unsigned special "nan", or a
decimal mantissa with optional exponent.  Finite values are kept exactly as
rationals. -/
def goParseFloat (s : String) : Option GoFloat :=
  let cs := s.data
  let signRest : Bool × List Char :=
    match cs with
    | '+' :: r => (false, r)
    | '-' :: r => (true, r)
    | r => (false, r)
  let neg := signRest.1
  let rest := signRest.2
  if lowerEq rest "inf" ∨ lowerEq rest "infinity" then some (GoFloat.inf neg)
  else if lowerEq cs "nan" then some GoFloat.nan
  else
    match parseMantissa rest with
    | none => none
    | some m =>
      match parseExponent m.2.2 with
      | none => none
      | some e =>
        let mag : Rat := decimalValue m.1 (e - (m.2.1 : Int))
        some (GoFloat.finite (if neg then -mag else mag))

/-- Value of an ASCII hex digit (as accepted by Go `encoding/hex`). -/
def hexVal (c : Char) : Option Nat :=
  if '0' ≤ c ∧ c ≤ '9' then some (c.toNat - 48)
  else if 'a' ≤ c ∧ c ≤ 'f' then some (c.toNat - 87)
  else if 'A' ≤ c ∧ c ≤ 'F' then some (c.toNat - 55)
  else none

/-- Hex-decode a list of chars into bytes (pairs of hex digits). -/
def hexDecode : List Char → Option (List Nat)
  | [] => some []
  | c1 :: c2 :: rest =>
    match hexVal c1, hexVal c2, hexDecode rest with
    | some h, some l, some tail => some ((h * 16 + l) :: tail)
    | _, _, _ => none
  | [_] => none

/-- Embedding of `primitive.ObjectIDFromHex`: exactly 24 hex characters,
decoded into the 12-byte object id. -/
def objectIDFromHex (s : String) : Option (List Nat) :=
  if s.length = 24 then hexDecode s.data else none

/-- The zero ObjectID (Go zero value of `primitive.ObjectID`). -/
def zeroObjectID : List Nat := List.replicate 12 0

/-- Modelled from the spec: `models.VehicleStatus.Valid` lives in the external
models package (not under src/); per the spec the enumerated vehicle
statuses are active, inactive, repair, sold, rented. -/
def vehicleStatusValid (s : String) : Bool :=
  s = "active" ∨ s = "inactive" ∨ s = "repair" ∨ s = "sold" ∨ s = "rented"

/-- Modelled from the spec: `models.FuelCondition.Valid` lives in the external
models package (not under src/); per the spec the enumerated fuel
conditions are empty, low, half, full. -/
def fuelConditionValid (s : String) : Bool :=
  s = "empty" ∨ s = "low" ∨ s = "half" ∨ s = "full"

/-- Embedding of `repositories.TrackingFilter` (part_001 lines 20-32).
`Mileage` is the finite float value; `vehicleID` is the unexported decoded
object id populated by `Build`. -/
structure TrackingFilter where
  Page : Int := 0
  PageSize : Int := 0
  SortField : String := ""
  SortOrder : String := ""
  VehicleID : String := ""
  Location : String := ""
  Mileage : Rat := 0
  Status : String := ""
  FuelCondition : String := ""
  vehicleID : List Nat := zeroObjectID
  deriving DecidableEq

/-- Embedding of the status / fuel-condition validation tail of
`TrackingFilter.Build` (part_001 lines 61-71). -/
def TrackingFilter.validateEnums (t : TrackingFilter) : Except Err TrackingFilter :=
  if t.Status ≠ "" ∧ vehicleStatusValid t.Status = false then
    Except.error (Err.invalidStatus t.Status)
  else if t.FuelCondition ≠ "" ∧ fuelConditionValid t.FuelCondition = false then
    Except.error (Err.invalidFuelCondition t.FuelCondition)
  else Except.ok t

/-- The defaulting prefix of `TrackingFilter.Build` (part_001 lines 39-53).
The source applies five sequential ifs, each updating a distinct field and
testing a field not touched by the earlier ifs except the page-size clamp,
which runs after the page-size default; this single record update is
extensionally the same assignment. -/
def applyDefaults (t : TrackingFilter) : TrackingFilter :=
  { t with
    Page := if t.Page = 0 then 1 else t.Page,
    PageSize :=
      if 100 < (if t.PageSize = 0 then 10 else t.PageSize) then 100
      else (if t.PageSize = 0 then 10 else t.PageSize),
    SortField := if t.SortField = "" then "created_at" else t.SortField,
    SortOrder := if t.SortOrder = "" then "asc" else t.SortOrder }

/-- Embedding of `TrackingFilter.Build` (part_001 lines 38-72): apply
defaults and the upper clamp, then validate vehicle id and enums. -/
def TrackingFilter.Build (t : TrackingFilter) : Except Err TrackingFilter :=
  let t5 := applyDefaults t
  if t5.VehicleID ≠ "" then
    match objectIDFromHex t5.VehicleID with
    | none => Except.error Err.invalidID
    | some id => TrackingFilter.validateEnums { t5 with vehicleID := id }
  else TrackingFilter.validateEnums t5

/-- The filter keys recognized by the query path: the special-cased numeric
keys of the service loop and the json tags of `TrackingFilter`. -/
def recognizedKeys : List String :=
  ["page", "limit", "sort_by", "sort_order", "vehicle_id", "location",
   "mileage", "status", "fuel_condition"]

/-- A value of the intermediate `map[string]any` built by
`MongoTrackingService.FindTrackingData` (tracking_service.go lines 48-67):
ints for page/limit, a float for mileage, strings otherwise. -/
inductive JVal where
  | int (n : Int)
  | float (f : GoFloat)
  | str (s : String)
  deriving DecidableEq

/-- Map-insert on the association-list model of `map[string]any`:
overwrites an existing binding of the key. -/
def insertKV (m : List (String × JVal)) (k : String) (v : JVal) : List (String × JVal) :=
  match m with
  | [] => [(k, v)]
  | (k1, v1) :: rest => if k1 = k then (k, v) :: rest else (k1, v1) :: insertKV rest k v

/-- Embedding of one iteration of the query-parameter loop of
`MongoTrackingService.FindTrackingData` (tracking_service.go lines 49-67):
page/limit via `strconv.Atoi`, mileage via `strconv.ParseFloat`, anything
else carried through as a string; a parse failure aborts the whole build. -/
def addQueryParam (data : List (String × JVal)) (k v : String) : Except Err (List (String × JVal)) :=
  if k = "page" ∨ k = "limit" then
    match goAtoi v with
    | none => Except.error (Err.numSyntax v)
    | some n => Except.ok (insertKV data k (JVal.int n))
  else if k = "mileage" then
    match goParseFloat v with
    | none => Except.error (Err.numSyntax v)
    | some f => Except.ok (insertKV data k (JVal.float f))
  else Except.ok (insertKV data k (JVal.str v))

/-- The full query-parameter loop: fold `addQueryParam` over the parameter
bag (Go iterates the `url.Values` map; with distinct keys the result does
not depend on the iteration order, here fixed as list order). -/
def buildDataMap : List (String × String) → List (String × JVal) → Except Err (List (String × JVal))
  | [], data => Except.ok data
  | (k, v) :: rest, data =>
    match addQueryParam data k v with
    | Except.error e => Except.error e
    | Except.ok d => buildDataMap rest d

/-- Embedding of the `json.Marshal(data)` step (tracking_service.go line 69):
marshalling fails exactly when a float value is an infinity or NaN
("json: unsupported value"). -/
def jsonMarshalOK (m : List (String × JVal)) : Bool :=
  m.all fun kv =>
    match kv.2 with
    | JVal.float (GoFloat.finite _) => true
    | JVal.float _ => false
    | _ => true

/-- The struct tag that goccy/go-json (a drop-in for encoding/json) field
matching assigns to a JSON object key: an exact tag match is preferred,
otherwise an ASCII case-insensitive match (encoding/json's fold; its extra
Unicode folds for kelvin/long-s are not modelled).  The nine json tags of
`TrackingFilter` are pairwise distinct under folding, so at most one tag
matches a key. -/
def matchTag (k : String) : Option String :=
  if k ∈ recognizedKeys then some k
  else recognizedKeys.find? (fun tag => toLowerL k.data = tag.data)

/-- Whether decoding this JSON value into the field with this tag raises an
UnmarshalTypeError: page/limit are Go ints (a JSON number with a
fractional part fails), mileage is a float64 (any JSON number decodes),
every other field is a string. -/
def jvalMismatch (tag : String) (w : JVal) : Bool :=
  if tag = "page" ∨ tag = "limit" then
    match w with
    | JVal.int _ => false
    | JVal.float (GoFloat.finite q) => q.den ≠ 1
    | _ => true
  else if tag = "mileage" then
    match w with
    | JVal.str _ => true
    | _ => false
  else
    match w with
    | JVal.str _ => false
    | _ => true

/-- Strict lexicographic order on character lists; on UTF-8 encoded strings
codepoint order coincides with byte order, so this is the order in which
`json.Marshal` writes map keys. -/
def charListLt : List Char → List Char → Bool
  | [], [] => false
  | [], _ :: _ => true
  | _ :: _, [] => false
  | a :: as, b :: bs =>
    if a < b then true
    else if b < a then false
    else charListLt as bs

/-- Bytewise strict order on map keys. -/
def keyLt (a b : String) : Bool :=
  charListLt a.data b.data

/-- The data-map entry that ends up in a struct field: `json.Marshal` writes
the map keys sorted bytewise and `json.Unmarshal` lets a later matching key
overwrite an earlier one, so among the entries whose key matches the tag
the one with the bytewise-largest key wins. -/
def lastMatch : List (String × JVal) → String → Option (String × JVal)
  | [], _ => none
  | kv :: rest, tag =>
    let best := lastMatch rest tag
    if matchTag kv.1 = some tag ∧
        (match best with
         | none => true
         | some b => keyLt b.1 kv.1) = true
    then some kv else best

/-- The int-field value decoded for a tag (Go zero value 0 when no key
matches); integral JSON numbers decode into Go ints. -/
def intFieldVal (m : List (String × JVal)) (tag : String) : Int :=
  match lastMatch m tag with
  | some (_, JVal.int n) => n
  | some (_, JVal.float (GoFloat.finite q)) => if q.den = 1 then q.num else 0
  | _ => 0

/-- The string-field value decoded for a tag (zero value "" when absent). -/
def strFieldVal (m : List (String × JVal)) (tag : String) : String :=
  match lastMatch m tag with
  | some (_, JVal.str s) => s
  | _ => ""

/-- The float64-field value decoded for a tag (zero value 0 when absent). -/
def ratFieldVal (m : List (String × JVal)) (tag : String) : Rat :=
  match lastMatch m tag with
  | some (_, JVal.float (GoFloat.finite q)) => q
  | some (_, JVal.int n) => n
  | _ => 0

/-- Embedding of the `json.Unmarshal(buf, &filter)` step
(tracking_service.go lines 74-77) with goccy/go-json's field matching:
each object key is matched to a struct tag exactly or case-insensitively;
a matched value of the wrong type is an unmarshal error; keys matching no
tag are ignored; among several keys matching one field the last one in the
marshalled (bytewise-sorted) key order wins. -/
def unmarshalTrackingFilter (m : List (String × JVal)) : Except Err TrackingFilter :=
  if jsonMarshalOK m = false then Except.error Err.unsupportedJSONValue
  else
    match m.find? (fun kv =>
        match matchTag kv.1 with
        | some tag => jvalMismatch tag kv.2
        | none => false) with
    | some kv => Except.error (Err.decodeMismatch kv.1)
    | none =>
      Except.ok
        { Page := intFieldVal m "page", PageSize := intFieldVal m "limit",
          SortField := strFieldVal m "sort_by", SortOrder := strFieldVal m "sort_order",
          VehicleID := strFieldVal m "vehicle_id", Location := strFieldVal m "location",
          Mileage := ratFieldVal m "mileage", Status := strFieldVal m "status",
          FuelCondition := strFieldVal m "fuel_condition" }

/-- Embedding of the filter-construction part of
`MongoTrackingService.FindTrackingData` (tracking_service.go lines 48-77):
parameter loop, marshal, unmarshal. -/
def buildFilterFromQuery (q : List (String × String)) : Except Err TrackingFilter :=
  match buildDataMap q [] with
  | Except.error e => Except.error e
  | Except.ok data => unmarshalTrackingFilter data

/-- The fully resolved filter of a parameter bag: the service-side
construction followed by `TrackingFilter.Build`, which the repository runs
before touching the store (part_001 line 110). -/
def resolveFilter (q : List (String × String)) : Except Err TrackingFilter :=
  match buildFilterFromQuery q with
  | Except.error e => Except.error e
  | Except.ok f => f.Build

/-- The query sent to the store by `MongoTackingRepository.FindTrackingData`
(part_001 lines 107-137): the bson predicate (one optional constraint per
filter field), the sort document, and the skip/limit options. -/
structure QueryPlan where
  vehicleIdC : Option (List Nat) := none
  locationRegex : Option String := none
  mileageGte : Option Rat := none
  statusC : Option String := none
  fuelC : Option String := none
  sort : Option (String × Int) := none
  skip : Int := 0
  limit : Int := 0
  deriving DecidableEq

/-- Two's-complement wrap of an integer into the Go int64 range, as Go's
64-bit `int` arithmetic computes it. -/
def wrapInt64 (n : Int) : Int :=
  (n + 2 ^ 63) % 2 ^ 64 - 2 ^ 63

/-- The query plan built from a resolved filter, mirroring part_001 lines
113-136: each constraint is added only when the field is non-default; the
location predicate is the regex `"^" ++ location` with options "i"; the
sort direction is -1 exactly for the string "desc"; skip is
`(filter.Page - 1) * filter.PageSize` computed in Go's wrapping 64-bit
`int` arithmetic, and limit is the page size. -/
def planOfResolved (f : TrackingFilter) : QueryPlan :=
  { vehicleIdC := if f.VehicleID ≠ "" then some f.vehicleID else none,
    locationRegex := if f.Location ≠ "" then some ("^" ++ f.Location) else none,
    mileageGte := if f.Mileage ≠ 0 then some f.Mileage else none,
    statusC := if f.Status ≠ "" then some f.Status else none,
    fuelC := if f.FuelCondition ≠ "" then some f.FuelCondition else none,
    sort := if f.SortField ≠ "" then
        some (f.SortField, if f.SortOrder = "desc" then -1 else 1)
      else none,
    skip := wrapInt64 (wrapInt64 (f.Page - 1) * f.PageSize),
    limit := f.PageSize }

/-- Embedding of `MongoTackingRepository.FindTrackingData` up to the store
round trip (part_001 lines 102-138): resolve the filter with `Build`, then
construct the query plan handed to `collection.Find`. -/
def MongoTackingRepository.FindTrackingDataPlan (filter : TrackingFilter) : Except Err QueryPlan :=
  match filter.Build with
  | Except.error e => Except.error e
  | Except.ok f => Except.ok (planOfResolved f)

/-- The whole query path from a raw parameter bag to the store query:
`MongoTrackingService.FindTrackingData` composed with the repository.  An
error anywhere means the store is never queried (no plan is produced). -/
def findTrackingDataQuery (q : List (String × String)) : Except Err QueryPlan :=
  match buildFilterFromQuery q with
  | Except.error e => Except.error e
  | Except.ok f => MongoTackingRepository.FindTrackingDataPlan f

/-- Embedding of a persisted `models.TrackingData` document, with the fields
the query predicate reads. -/
structure TrackingData where
  vehicleID : List Nat := zeroObjectID
  location : String := ""
  mileage : Rat := 0
  status : String := ""
  fuelCondition : String := ""
  createdAt : Int := 0
  deriving DecidableEq

/-- The PCRE metacharacters; the repository does not escape them when it
embeds the location into the pattern `"^" ++ location`. -/
def regexMeta : List Char :=
  ['\\', '.', '^', '$', '|', '?', '*', '+', '(', ')', '[', ']', '\x7b', '\x7d']

/-- A string free of regex metacharacters (for such locations the emitted
pattern is a literal). -/
def noRegexMeta (s : String) : Bool :=
  s.data.all (fun c => ¬ c ∈ regexMeta)

/-- Matcher for the pattern fragment the repository emits after the `^`
anchor: the `.` wildcard matches any character and every other character
matches itself ASCII case-insensitively (the "i" option).  Other PCRE
constructs are outside this fragment; the statements below use the matcher
only on metacharacter-free locations and on the `.` wildcard. -/
def reFragMatch : List Char → List Char → Bool
  | [], _ => true
  | _ :: _, [] => false
  | c :: p, d :: s =>
    if c = '.' then reFragMatch p s
    else if c.toLower = d.toLower then reFragMatch p s
    else false

/-- Semantics of the anchored bson regex emitted by the repository: the
pattern is always `"^" ++ location` with the "i" option (part_001 line
117), i.e. a search anchored at the start of the string: the pattern body
must match a prefix of the document's location. -/
def anchoredCIMatch (pat : String) (s : String) : Bool :=
  match pat.data with
  | '^' :: p => reFragMatch p s.data
  | _ => false

/-- An optional constraint holds when absent or when its predicate holds. -/
def optHolds {α : Type} (c : Option α) (p : α → Bool) : Bool :=
  match c with
  | none => true
  | some x => p x

/-- Semantics of the bson predicate of a query plan on one document:
conjunction of the present constraints. -/
def planMatches (plan : QueryPlan) (e : TrackingData) : Bool :=
  optHolds plan.vehicleIdC (fun id => e.vehicleID = id) &&
  optHolds plan.locationRegex (fun pat => anchoredCIMatch pat e.location) &&
  optHolds plan.mileageGte (fun b => b ≤ e.mileage) &&
  optHolds plan.statusC (fun st => e.status = st) &&
  optHolds plan.fuelC (fun fc => e.fuelCondition = fc)

/-- One queue delivery (body bytes). -/
structure Delivery where
  body : List Nat
  deriving DecidableEq

/-- The acknowledgment operations a handler can perform on its delivery. -/
inductive AckAction where
  | ack
  | nack (requeue : Bool)
  deriving DecidableEq

/-- An outbound publication (`amqp.Publishing` fields used by the code). -/
structure Publishing where
  contentType : String
  body : List Nat
  deriving DecidableEq

/-- Content type constant `common.ApplicationJSON`. -/
def applicationJSON : String := "application/json"

/-- Observable effects of handling one delivery: the track invocations, the
message published to the outbound queue (if any), the acknowledgment
operations attempted in order, and whether a publish failure was logged. -/
structure ConsumeResult (Req : Type) where
  trackCalls : List Req
  published : Option Publishing
  acks : List AckAction
  publishFailureLogged : Bool
  deriving DecidableEq

/-- Embedding of the per-delivery handler spawned by `App.Consume`
(part_000 lines 73-121): decode the body; on failure nack without requeue
and stop; invoke the tracking service; on failure nack without requeue and
stop; on success publish the original body with content type
application/json on a sub-task (its outcome only logged) and ack. -/
def consumeOne {Req : Type} (decode : List Nat → Option Req)
    (track : Req → Except Err Unit)
    (publishOutcome : Except Err Unit)
    (msg : Delivery) : ConsumeResult Req :=
  match decode msg.body with
  | none =>
    { trackCalls := [], published := none,
      acks := [AckAction.nack false], publishFailureLogged := false }
  | some req =>
    match track req with
    | Except.error _ =>
      { trackCalls := [req], published := none,
        acks := [AckAction.nack false], publishFailureLogged := false }
    | Except.ok _ =>
      { trackCalls := [req],
        published := some { contentType := applicationJSON, body := msg.body },
        acks := [AckAction.ack],
        publishFailureLogged := isErrE publishOutcome }

/-- Embedding of `MongoTrackingService.TrackVehicle` (tracking_service.go
lines 28-43), parameterized by the external validation, the transformation
to the persisted shape, and the store create; the second component records
the create invocations (the records handed to the store). -/
def TrackVehicle {Req TD : Type}
    (validate : Req → Except Err Unit)
    (toTrackingData : Req → Except Err TD)
    (create : TD → Except Err Unit)
    (req : Req) : Except Err Unit × List TD :=
  match validate req with
  | Except.error e => (Except.error e, [])
  | Except.ok _ =>
    match toTrackingData req with
    | Except.error e => (Except.error e, [])
    | Except.ok td =>
      match create td with
      | Except.error e => (Except.error e, [td])
      | Except.ok _ => (Except.ok (), [td])

/-- HTTP responses of the query handler. -/
inductive HandlerResponse where
  | methodNotAllowed
  | badRequest (e : Err)
  | notFound
  | success (data : List TrackingData) (message : String)
  deriving DecidableEq

/-- Status code of each handler response. -/
def HandlerResponse.status : HandlerResponse → Nat
  | HandlerResponse.methodNotAllowed => 405
  | HandlerResponse.badRequest _ => 400
  | HandlerResponse.notFound => 404
  | HandlerResponse.success _ _ => 200

/-- Embedding of `V1TrackingHandler.FindTrackingData` (handler, part_002
region of src/unnamed: lines 119-143): reject non-GET with 405, map a
service error to 400, an empty result to 404, and a non-empty result to the
success envelope. -/
def V1FindTrackingData (method : String)
    (svcResult : Except Err (List TrackingData)) : HandlerResponse :=
  if method ≠ "GET" then HandlerResponse.methodNotAllowed
  else
    match svcResult with
    | Except.error e => HandlerResponse.badRequest e
    | Except.ok vehicles =>
      if vehicles.length = 0 then HandlerResponse.notFound
      else HandlerResponse.success vehicles "successfully fetched tracking data"

/-- Invariant of the intermediate data map: any entry under a key other than
page, limit and mileage holds a string (those are the only keys the service
loop stores non-string values under). -/
def strTyped (m : List (String × JVal)) : Prop :=
  ∀ k w, (k, w) ∈ m → k ≠ "page" → k ≠ "limit" → k ≠ "mileage" → ∃ s, w = JVal.str s

/-- A sample unresolved filter exercising every constraint field. -/
def sampleFilter : TrackingFilter :=
  { Page := 2, PageSize := 20, SortOrder := "desc",
    VehicleID := "0123456789abcdef01234567", Location := "Yangon",
    Mileage := 5, Status := "active", FuelCondition := "low" }

/-- The resolved form of `sampleFilter` (defaults applied, id decoded). -/
def sampleResolved : TrackingFilter :=
  { Page := 2, PageSize := 20, SortField := "created_at", SortOrder := "desc",
    VehicleID := "0123456789abcdef01234567", Location := "Yangon",
    Mileage := 5, Status := "active", FuelCondition := "low",
    vehicleID := [1, 35, 69, 103, 137, 171, 205, 239, 1, 35, 69, 103] }

/-- A sample persisted event matching every constraint of `sampleResolved`. -/
def sampleEvent : TrackingData :=
  { vehicleID := [1, 35, 69, 103, 137, 171, 205, 239, 1, 35, 69, 103],
    location := "YANGON downtown", mileage := 12, status := "active",
    fuelCondition := "low" }

example : (TrackingFilter.Build {}).map (fun f => (f.Page, f.PageSize, f.SortField, f.SortOrder))
    = Except.ok (1, 10, "created_at", "asc") := by rfl

example : TrackingFilter.Build sampleFilter = Except.ok sampleResolved := by rfl

example : (resolveFilter [("page", "2"), ("limit", "5")]).map (fun f => (f.Page, f.PageSize))
    = Except.ok (2, 5) := by rfl

example : (resolveFilter [("limit", "500")]).map (fun f => f.PageSize) = Except.ok 100 := by rfl

example : (resolveFilter [("page", "-5")]).map (fun f => f.Page) = Except.ok (-5) := by rfl

example : isErrE (resolveFilter [("status", "bogus")]) = true := by rfl

example : isErrE (resolveFilter [("vehicle_id", "not-a-valid-id")]) = true := by rfl

example : (resolveFilter [("status", "")]).map (fun f => f.Status) = Except.ok "" := by rfl

example : (resolveFilter [("mileage", "12.5"), ("junk", "zzz")]).map (fun f => f.Mileage)
    = Except.ok (Rat.divInt 25 2) := by rfl

example : isErrE (resolveFilter [("mileage", "abc")]) = true := by rfl

example : isErrE (resolveFilter [("page", "abc")]) = true := by rfl

example : isErrE (resolveFilter [("Limit", "5")]) = true := by rfl

example : (resolveFilter [("SORT_BY", "location")]).map (fun f => f.SortField)
    = Except.ok "location" := by rfl

example : (resolveFilter [("STATUS", "active")]).map (fun f => f.Status)
    = Except.ok "active" := by rfl

example : isErrE (resolveFilter [("STATUS", "active"), ("status", "bogus")]) = true := by rfl

example : isErrE (resolveFilter [("status", "bogus"), ("STATUS", "active")]) = true := by rfl

example : (findTrackingDataQuery [("page", "9223372036854775807")]).map (fun p => p.skip)
    = Except.ok (-20) := by rfl

/-! ### Helper lemmas about the data-map model -/

theorem lookup_insertKV_self (m : List (String × JVal)) (k : String) (v : JVal) :
    List.lookup k (insertKV m k v) = some v := by
  induction m with
  | nil => simp [insertKV, List.lookup]
  | cons kv rest ih =>
    obtain ⟨k1, v1⟩ := kv
    by_cases h : k1 = k
    · simp [insertKV, h, List.lookup]
    · have hb : (k == k1) = false := beq_eq_false_iff_ne.mpr (Ne.symm h)
      simp [insertKV, h, List.lookup, hb, ih]

theorem lookup_insertKV_ne (m : List (String × JVal)) (k k' : String) (v : JVal)
    (h : k' ≠ k) : List.lookup k' (insertKV m k v) = List.lookup k' m := by
  have hb : (k' == k) = false := beq_eq_false_iff_ne.mpr h
  induction m with
  | nil => simp [insertKV, List.lookup, hb]
  | cons kv rest ih =>
    obtain ⟨k1, v1⟩ := kv
    by_cases h1 : k1 = k
    · subst h1
      simp [insertKV, List.lookup, hb, ih]
    · by_cases h2 : k1 = k'
      · subst h2
        simp [insertKV, h1, List.lookup, ih]
      · have hb2 : (k' == k1) = false := beq_eq_false_iff_ne.mpr (Ne.symm h2)
        simp [insertKV, h1, List.lookup, hb2, ih]

theorem mem_insertKV (m : List (String × JVal)) (k k' : String) (v w : JVal)
    (h : (k', w) ∈ insertKV m k v) : (k', w) ∈ m ∨ (k' = k ∧ w = v) := by
  induction m with
  | nil =>
    simp [insertKV] at h
    exact Or.inr h
  | cons kv rest ih =>
    obtain ⟨k1, v1⟩ := kv
    by_cases h1 : k1 = k
    · subst h1
      simp [insertKV] at h
      rcases h with h | h
      · exact Or.inr ⟨h.1, h.2⟩
      · exact Or.inl (List.mem_cons_of_mem _ h)
    · simp [insertKV, h1] at h
      rcases h with h | h
      · exact Or.inl (by simp [h])
      · rcases ih h with h2 | h2
        · exact Or.inl (List.mem_cons_of_mem _ h2)
        · exact Or.inr h2

theorem buildDataMap_append (q r : List (String × String)) (data : List (String × JVal)) :
    buildDataMap (q ++ r) data =
      match buildDataMap q data with
      | Except.error e => Except.error e
      | Except.ok d => buildDataMap r d := by
  induction q generalizing data with
  | nil => simp [buildDataMap]
  | cons kv rest ih =>
    obtain ⟨k, v⟩ := kv
    simp only [List.cons_append, buildDataMap]
    cases addQueryParam data k v with
    | error e => rfl
    | ok d => exact ih d

theorem addQueryParam_ok_insert (data : List (String × JVal)) (k v : String)
    (d : List (String × JVal)) (h : addQueryParam data k v = Except.ok d) :
    ∃ jv : JVal, d = insertKV data k jv := by
  unfold addQueryParam at h
  split at h
  · cases hga : goAtoi v with
    | none => rw [hga] at h; cases h
    | some n => rw [hga] at h; cases h; exact ⟨JVal.int n, rfl⟩
  · split at h
    · cases hgf : goParseFloat v with
      | none => rw [hgf] at h; cases h
      | some f => rw [hgf] at h; cases h; exact ⟨JVal.float f, rfl⟩
    · cases h; exact ⟨JVal.str v, rfl⟩

theorem buildDataMap_lookup_notMem (q : List (String × String)) (k : String)
    (hk : k ∉ q.map Prod.fst) :
    ∀ data d, buildDataMap q data = Except.ok d →
      List.lookup k d = List.lookup k data := by
  induction q with
  | nil =>
    intro data d h
    cases h
    rfl
  | cons kv rest ih =>
    intro data d h
    obtain ⟨k1, v1⟩ := kv
    simp only [List.map_cons, List.mem_cons] at hk
    push_neg at hk
    simp only [buildDataMap] at h
    cases ha : addQueryParam data k1 v1 with
    | error e => rw [ha] at h; cases h
    | ok d1 =>
      rw [ha] at h
      obtain ⟨jv, rfl⟩ := addQueryParam_ok_insert data k1 v1 d1 ha
      rw [ih hk.2 _ _ h, lookup_insertKV_ne _ _ _ _ hk.1]

theorem buildDataMap_lookup_mem (q : List (String × String)) (k v : String)
    (hnd : (q.map Prod.fst).Nodup) (hmem : (k, v) ∈ q)
    (h1 : k ≠ "page") (h2 : k ≠ "limit") (h3 : k ≠ "mileage") :
    ∀ data d, buildDataMap q data = Except.ok d →
      List.lookup k d = some (JVal.str v) := by
  induction q with
  | nil => cases hmem
  | cons kv rest ih =>
    intro data d h
    obtain ⟨k1, v1⟩ := kv
    simp only [List.map_cons, List.nodup_cons] at hnd
    simp only [buildDataMap] at h
    cases ha : addQueryParam data k1 v1 with
    | error e => rw [ha] at h; cases h
    | ok d1 =>
      rw [ha] at h
      rcases List.mem_cons.mp hmem with heq | hrest
      · injection heq with hk hv
        subst hk
        subst hv
        have haq : addQueryParam data k v = Except.ok (insertKV data k (JVal.str v)) := by
          unfold addQueryParam
          simp [h1, h2, h3]
        rw [haq] at ha
        cases ha
        rw [buildDataMap_lookup_notMem rest k hnd.1 _ _ h, lookup_insertKV_self]
      · exact ih hnd.2 hrest _ _ h

theorem buildDataMap_err_of_badInt (q : List (String × String)) (k v : String)
    (hk : k = "page" ∨ k = "limit") (hmem : (k, v) ∈ q) (hbad : goAtoi v = none) :
    ∀ data, isErrE (buildDataMap q data) = true := by
  induction q with
  | nil => cases hmem
  | cons kv rest ih =>
    intro data
    obtain ⟨k1, v1⟩ := kv
    simp only [buildDataMap]
    rcases List.mem_cons.mp hmem with heq | hrest
    · injection heq with hk hv
      subst hk
      subst hv
      have : addQueryParam data k v = Except.error (Err.numSyntax v) := by
        unfold addQueryParam
        simp [hk, hbad]
      rw [this]
      rfl
    · cases ha : addQueryParam data k1 v1 with
      | error e => rfl
      | ok d1 => exact ih hrest d1

theorem buildDataMap_err_of_badFloat (q : List (String × String)) (v : String)
    (hmem : ("mileage", v) ∈ q) (hbad : goParseFloat v = none) :
    ∀ data, isErrE (buildDataMap q data) = true := by
  induction q with
  | nil => cases hmem
  | cons kv rest ih =>
    intro data
    obtain ⟨k1, v1⟩ := kv
    simp only [buildDataMap]
    rcases List.mem_cons.mp hmem with heq | hrest
    · injection heq with hk hv
      subst hk
      subst hv
      have : addQueryParam data "mileage" v = Except.error (Err.numSyntax v) := by
        unfold addQueryParam
        simp [hbad]
      rw [this]
      rfl
    · cases ha : addQueryParam data k1 v1 with
      | error e => rfl
      | ok d1 => exact ih hrest d1

/-! ### Inversion lemmas for `TrackingFilter.Build` and the unmarshal step -/

theorem isErrE_eq_not_isOkE {ε α : Type} (x : Except ε α) : isErrE x = !(isOkE x) := by
  cases x <;> rfl

theorem validateEnums_ok_eq (t f : TrackingFilter) (h : t.validateEnums = Except.ok f) :
    f = t := by
  unfold TrackingFilter.validateEnums at h
  split at h
  · cases h
  · split at h
    · cases h
    · injection h with h1
      exact h1.symm

theorem validateEnums_isOk (t : TrackingFilter) :
    isOkE t.validateEnums =
      (((t.Status == "") || vehicleStatusValid t.Status) &&
       ((t.FuelCondition == "") || fuelConditionValid t.FuelCondition)) := by
  by_cases h1 : t.Status = "" <;> by_cases h2 : vehicleStatusValid t.Status = true <;>
    by_cases h3 : t.FuelCondition = "" <;> by_cases h4 : fuelConditionValid t.FuelCondition = true <;>
      simp [TrackingFilter.validateEnums, isOkE, h1, h2, h3, h4,
        Bool.not_eq_true] at *

theorem Build_ok_shape (t f : TrackingFilter) (h : t.Build = Except.ok f) :
    f.Page = (applyDefaults t).Page ∧ f.PageSize = (applyDefaults t).PageSize ∧
    f.SortField = (applyDefaults t).SortField ∧ f.SortOrder = (applyDefaults t).SortOrder ∧
    f.VehicleID = t.VehicleID ∧ f.Location = t.Location ∧ f.Mileage = t.Mileage ∧
    f.Status = t.Status ∧ f.FuelCondition = t.FuelCondition := by
  simp only [TrackingFilter.Build] at h
  split at h
  · split at h
    · cases h
    · have he := validateEnums_ok_eq _ _ h
      subst he
      exact ⟨rfl, rfl, rfl, rfl, rfl, rfl, rfl, rfl, rfl⟩
  · have he := validateEnums_ok_eq _ _ h
    subst he
    exact ⟨rfl, rfl, rfl, rfl, rfl, rfl, rfl, rfl, rfl⟩

theorem Build_isOk_eq (t : TrackingFilter) :
    isOkE t.Build =
      (((t.VehicleID == "") || (objectIDFromHex t.VehicleID).isSome) &&
       (((t.Status == "") || vehicleStatusValid t.Status) &&
        ((t.FuelCondition == "") || fuelConditionValid t.FuelCondition))) := by
  simp only [TrackingFilter.Build]
  by_cases h0 : t.VehicleID = ""
  · rw [if_neg (by simp [applyDefaults, h0])]
    rw [validateEnums_isOk]
    simp [applyDefaults, h0]
  · rw [if_pos (by simp [applyDefaults, h0])]
    cases hx : objectIDFromHex t.VehicleID with
    | none =>
      have : objectIDFromHex (applyDefaults t).VehicleID = none := hx
      rw [this]
      simp [isOkE, h0, hx]
    | some id =>
      have : objectIDFromHex (applyDefaults t).VehicleID = some id := hx
      rw [this]
      rw [validateEnums_isOk]
      simp [applyDefaults, h0, hx]

theorem unmarshal_ok_fields (m : List (String × JVal)) (f : TrackingFilter)
    (h : unmarshalTrackingFilter m = Except.ok f) :
    f.Page = intFieldVal m "page" ∧ f.PageSize = intFieldVal m "limit" ∧
    f.SortField = strFieldVal m "sort_by" ∧ f.SortOrder = strFieldVal m "sort_order" ∧
    f.VehicleID = strFieldVal m "vehicle_id" ∧ f.Location = strFieldVal m "location" ∧
    f.Mileage = ratFieldVal m "mileage" ∧ f.Status = strFieldVal m "status" ∧
    f.FuelCondition = strFieldVal m "fuel_condition" := by
  unfold unmarshalTrackingFilter at h
  split at h
  · cases h
  · split at h
    · cases h
    · injection h with h1
      subst h1
      exact ⟨rfl, rfl, rfl, rfl, rfl, rfl, rfl, rfl, rfl⟩

/-! ### The data map stays string-typed off the numeric keys -/

theorem strTyped_insert (m : List (String × JVal)) (hm : strTyped m) (k : String) (jv : JVal)
    (hjv : k ≠ "page" → k ≠ "limit" → k ≠ "mileage" → ∃ s, jv = JVal.str s) :
    strTyped (insertKV m k jv) := by
  intro k' w hmem h1 h2 h3
  rcases mem_insertKV m k k' jv w hmem with h | ⟨rfl, rfl⟩
  · exact hm k' w h h1 h2 h3
  · exact hjv h1 h2 h3

theorem strTyped_addQueryParam (data : List (String × JVal)) (hd : strTyped data)
    (k v : String) (d : List (String × JVal)) (h : addQueryParam data k v = Except.ok d) :
    strTyped d := by
  unfold addQueryParam at h
  split at h
  case isTrue hk =>
    cases hga : goAtoi v with
    | none => rw [hga] at h; cases h
    | some n =>
      rw [hga] at h
      cases h
      refine strTyped_insert data hd k (JVal.int n) ?_
      intro h1 h2 _
      rcases hk with rfl | rfl
      · exact absurd rfl h1
      · exact absurd rfl h2
  case isFalse =>
    split at h
    case isTrue hk =>
      cases hgf : goParseFloat v with
      | none => rw [hgf] at h; cases h
      | some g =>
        rw [hgf] at h
        cases h
        refine strTyped_insert data hd k (JVal.float g) ?_
        intro _ _ h3
        exact absurd hk h3
    case isFalse =>
      cases h
      exact strTyped_insert data hd k (JVal.str v) (fun _ _ _ => ⟨v, rfl⟩)

theorem strTyped_buildDataMap (q : List (String × String)) :
    ∀ data d, strTyped data → buildDataMap q data = Except.ok d → strTyped d := by
  induction q with
  | nil =>
    intro data d hd h
    cases h
    exact hd
  | cons kv rest ih =>
    intro data d hd h
    obtain ⟨k1, v1⟩ := kv
    simp only [buildDataMap] at h
    cases ha : addQueryParam data k1 v1 with
    | error e => rw [ha] at h; cases h
    | ok d1 =>
      rw [ha] at h
      exact ih d1 d (strTyped_addQueryParam data hd k1 v1 d1 ha) h

theorem jsonMarshalOK_insert_str (m : List (String × JVal)) (k v : String)
    (hm : ∀ w, (k, w) ∈ m → ∃ s, w = JVal.str s) :
    jsonMarshalOK (insertKV m k (JVal.str v)) = jsonMarshalOK m := by
  induction m with
  | nil => rfl
  | cons kv rest ih =>
    obtain ⟨k1, w1⟩ := kv
    by_cases h1 : k1 = k
    · subst h1
      obtain ⟨s, rfl⟩ := hm w1 (List.mem_cons_self _ _)
      simp [insertKV, jsonMarshalOK]
    · have hrest : ∀ w, (k, w) ∈ rest → ∃ s, w = JVal.str s := by
        intro w hw
        exact hm w (List.mem_cons_of_mem _ hw)
      simp only [insertKV, if_neg h1, jsonMarshalOK, List.all_cons]
      rw [show (insertKV rest k (JVal.str v)).all _ = jsonMarshalOK (insertKV rest k (JVal.str v)) from rfl,
        ih hrest]
      rfl

/-! ### Bytewise key order: a key never sorts after its case-folded form -/

theorem char_toNat_ofNat_valid (n : Nat) (h : n < 55296) : (Char.ofNat n).toNat = n := by
  have hv : n.isValidChar := Or.inl h
  unfold Char.ofNat
  rw [dif_pos hv]
  unfold Char.ofNatAux
  simp [Char.toNat, UInt32.toNat]

theorem char_toLower_self_or_lt (c : Char) : c.toLower = c ∨ c < c.toLower := by
  unfold Char.toLower
  simp only []
  by_cases h : c.toNat ≥ 65 ∧ c.toNat ≤ 90
  · rw [if_pos h]
    right
    have h32 : (Char.ofNat (c.toNat + 32)).toNat = c.toNat + 32 :=
      char_toNat_ofNat_valid _ (by omega)
    have hlt : c.toNat < (Char.ofNat (c.toNat + 32)).toNat := by omega
    rw [Char.lt_def]
    exact hlt
  · rw [if_neg h]
    exact Or.inl rfl

theorem charListLt_of_map_toLower :
    ∀ (k : List Char), k ≠ k.map Char.toLower → charListLt k (k.map Char.toLower) = true
  | [], h => absurd rfl h
  | c :: k, h => by
    simp only [List.map_cons] at *
    rcases char_toLower_self_or_lt c with hc | hc
    · have hk : k ≠ k.map Char.toLower := by
        intro he
        exact h (by rw [hc, ← he])
      have hcc : ¬ c < c.toLower := by rw [hc]; exact Char.lt_irrefl c
      have hcc2 : ¬ c.toLower < c := by rw [hc]; exact Char.lt_irrefl c
      simp only [charListLt, if_neg hcc, if_neg hcc2]
      exact charListLt_of_map_toLower k hk
    · simp only [charListLt, if_pos hc]

theorem charListLt_asymm :
    ∀ (a b : List Char), charListLt a b = true → charListLt b a = false
  | [], [], h => by cases h
  | [], _ :: _, _ => rfl
  | _ :: _, [], h => by cases h
  | a :: as, b :: bs, h => by
    by_cases h1 : a < b
    · have h2 : ¬ b < a := Char.lt_asymm h1
      rw [charListLt, if_neg h2, if_pos h1]
    · by_cases h2 : b < a
      · rw [charListLt, if_neg h1, if_pos h2] at h
        cases h
      · rw [charListLt, if_neg h1, if_neg h2] at h
        rw [charListLt, if_neg h2, if_neg h1]
        exact charListLt_asymm as bs h

theorem keyLt_of_fold_eq (k tag : String) (hfold : toLowerL k.data = tag.data)
    (hne : k ≠ tag) : keyLt k tag = true := by
  unfold keyLt
  have hdne : k.data ≠ tag.data := by
    intro h
    exact hne (by cases k; cases tag; exact congrArg String.mk h)
  have hmap : k.data ≠ k.data.map Char.toLower := by
    rw [show k.data.map Char.toLower = toLowerL k.data from rfl, hfold]
    exact hdne
  have := charListLt_of_map_toLower k.data hmap
  rw [show k.data.map Char.toLower = toLowerL k.data from rfl, hfold] at this
  exact this

/-! ### Field matching and last-match lemmas -/

theorem matchTag_self (tag : String) (h : tag ∈ recognizedKeys) :
    matchTag tag = some tag := by
  unfold matchTag
  rw [if_pos h]

theorem matchTag_eq_some (k tag : String) (h : matchTag k = some tag) :
    tag ∈ recognizedKeys ∧ toLowerL k.data = tag.data := by
  unfold matchTag at h
  split at h
  · injection h with h1
    subst h1
    rename_i hk
    refine ⟨hk, ?_⟩
    simp only [recognizedKeys, List.mem_cons, List.not_mem_nil, or_false] at hk
    rcases hk with rfl | rfl | rfl | rfl | rfl | rfl | rfl | rfl | rfl <;> decide
  · refine ⟨List.mem_of_find?_eq_some h, ?_⟩
    have := List.find?_some h
    simpa using this

theorem keyLt_of_matchTag (k tag : String) (h : matchTag k = some tag) (hne : k ≠ tag) :
    keyLt k tag = true :=
  keyLt_of_fold_eq k tag (matchTag_eq_some k tag h).2 hne

theorem lastMatch_mem (m : List (String × JVal)) (tag : String) (best : String × JVal)
    (h : lastMatch m tag = some best) :
    best ∈ m ∧ matchTag best.1 = some tag := by
  induction m with
  | nil => cases h
  | cons kv rest ih =>
    simp only [lastMatch] at h
    by_cases hc : matchTag kv.1 = some tag ∧
        (match lastMatch rest tag with
         | none => true
         | some b => keyLt b.1 kv.1) = true
    · rw [if_pos hc] at h
      injection h with h1
      subst h1
      exact ⟨List.mem_cons_self _ _, hc.1⟩
    · rw [if_neg hc] at h
      obtain ⟨hm, ht⟩ := ih h
      exact ⟨List.mem_cons_of_mem _ hm, ht⟩

theorem lastMatch_exact (m : List (String × JVal)) (tag : String) (w : JVal)
    (htag : tag ∈ recognizedKeys)
    (hmem : (tag, w) ∈ m)
    (huniq : (m.map Prod.fst).Nodup) :
    lastMatch m tag = some (tag, w) := by
  induction m with
  | nil => cases hmem
  | cons kv rest ih =>
    simp only [List.map_cons, List.nodup_cons] at huniq
    simp only [lastMatch]
    rcases List.mem_cons.mp hmem with heq | hrest
    · subst heq
      have hcond : matchTag (tag, w).1 = some tag ∧
          (match lastMatch rest tag with
           | none => true
           | some b => keyLt b.1 (tag, w).1) = true := by
        refine ⟨matchTag_self tag htag, ?_⟩
        cases hr : lastMatch rest tag with
        | none => rfl
        | some best =>
          obtain ⟨hbm, hbt⟩ := lastMatch_mem rest tag best hr
          have hbne : best.1 ≠ tag := by
            intro he
            apply huniq.1
            have hmem2 : best.1 ∈ List.map Prod.fst rest :=
              List.mem_map_of_mem Prod.fst hbm
            rw [he] at hmem2
            exact hmem2
          exact keyLt_of_matchTag best.1 tag hbt hbne
      rw [if_pos hcond]
    · have hr := ih hrest huniq.2
      rw [hr]
      have hkne : kv.1 ≠ tag := by
        intro he
        apply huniq.1
        have hmem2 : (tag, w).1 ∈ List.map Prod.fst rest :=
          List.mem_map_of_mem Prod.fst hrest
        rw [he]
        exact hmem2
      have hcond : ¬ (matchTag kv.1 = some tag ∧
          (match some ((tag, w) : String × JVal) with
           | none => true
           | some b => keyLt b.1 kv.1) = true) := by
        intro hc
        have h1 : keyLt kv.1 tag = true := keyLt_of_matchTag kv.1 tag hc.1 hkne
        have h2 : keyLt tag kv.1 = true := hc.2
        have := charListLt_asymm kv.1.data tag.data h1
        rw [show charListLt tag.data kv.1.data = keyLt tag kv.1 from rfl] at this
        rw [h2] at this
        cases this
      rw [if_neg hcond]

theorem lastMatch_none_of_no_match (m : List (String × JVal)) (tag : String)
    (h : ∀ kv ∈ m, matchTag kv.1 ≠ some tag) : lastMatch m tag = none := by
  induction m with
  | nil => rfl
  | cons kv rest ih =>
    simp only [lastMatch]
    rw [ih (fun kv2 h2 => h kv2 (List.mem_cons_of_mem _ h2))]
    rw [if_neg (fun hc => h kv (List.mem_cons_self _ _) hc.1)]

theorem strFieldVal_of_exact (m : List (String × JVal)) (tag v : String)
    (htag : tag ∈ recognizedKeys)
    (hmem : (tag, JVal.str v) ∈ m)
    (huniq : (m.map Prod.fst).Nodup) :
    strFieldVal m tag = v := by
  unfold strFieldVal
  rw [lastMatch_exact m tag (JVal.str v) htag hmem huniq]

theorem mem_of_lookup_some (m : List (String × JVal)) (k : String) (w : JVal)
    (h : List.lookup k m = some w) : (k, w) ∈ m := by
  induction m with
  | nil => cases h
  | cons kv rest ih =>
    obtain ⟨k1, w1⟩ := kv
    simp only [List.lookup] at h
    by_cases hk : k = k1
    · subst hk
      rw [beq_self_eq_true] at h
      simp only [] at h
      injection h with h1
      subst h1
      exact List.mem_cons_self _ _
    · rw [beq_eq_false_iff_ne.mpr hk] at h
      simp only [] at h
      exact List.mem_cons_of_mem _ (ih h)

/-! ### Keys of the data map: uniqueness and origin -/

theorem keys_insertKV (m : List (String × JVal)) (k : String) (v : JVal) :
    (insertKV m k v).map Prod.fst =
      if k ∈ m.map Prod.fst then m.map Prod.fst else m.map Prod.fst ++ [k] := by
  induction m with
  | nil => simp [insertKV]
  | cons kv rest ih =>
    obtain ⟨k1, w1⟩ := kv
    by_cases h1 : k1 = k
    · subst h1
      simp [insertKV]
    · simp only [insertKV, if_neg h1, List.map_cons, ih]
      by_cases hm : k ∈ rest.map Prod.fst
      · rw [if_pos hm, if_pos (by simp [hm])]
      · rw [if_neg hm, if_neg (by simp [hm, Ne.symm h1])]
        simp

theorem keys_nodup_insertKV (m : List (String × JVal)) (k : String) (v : JVal)
    (h : (m.map Prod.fst).Nodup) : ((insertKV m k v).map Prod.fst).Nodup := by
  rw [keys_insertKV]
  split
  · exact h
  · rename_i hnm
    simp [List.nodup_append, h, hnm]

theorem keys_nodup_buildDataMap (q : List (String × String)) :
    ∀ data d, (data.map Prod.fst).Nodup → buildDataMap q data = Except.ok d →
      (d.map Prod.fst).Nodup := by
  induction q with
  | nil =>
    intro data d hnd h
    cases h
    exact hnd
  | cons kv rest ih =>
    intro data d hnd h
    obtain ⟨k1, v1⟩ := kv
    simp only [buildDataMap] at h
    cases ha : addQueryParam data k1 v1 with
    | error e => rw [ha] at h; cases h
    | ok d1 =>
      rw [ha] at h
      obtain ⟨jv, rfl⟩ := addQueryParam_ok_insert data k1 v1 d1 ha
      exact ih _ d (keys_nodup_insertKV data k1 jv hnd) h

theorem buildDataMap_keys_sub (q : List (String × String)) :
    ∀ data d, buildDataMap q data = Except.ok d →
      ∀ kv ∈ d, kv.1 ∈ data.map Prod.fst ∨ kv.1 ∈ q.map Prod.fst := by
  induction q with
  | nil =>
    intro data d h kv hm
    cases h
    exact Or.inl (List.mem_map_of_mem Prod.fst hm)
  | cons kv1 rest ih =>
    intro data d h kv hm
    obtain ⟨k1, v1⟩ := kv1
    simp only [buildDataMap] at h
    cases ha : addQueryParam data k1 v1 with
    | error e => rw [ha] at h; cases h
    | ok d1 =>
      rw [ha] at h
      obtain ⟨jv, rfl⟩ := addQueryParam_ok_insert data k1 v1 d1 ha
      rcases ih _ d h kv hm with hin | hin
      · rw [keys_insertKV] at hin
        split at hin
        · exact Or.inl hin
        · rcases List.mem_append.mp hin with h2 | h2
          · exact Or.inl h2
          · simp only [List.mem_singleton] at h2
            exact Or.inr (by simp [h2])
      · exact Or.inr (by simp [hin])

/-! ### Inserting a key that matches no field leaves the unmarshal unchanged -/

theorem find?_insertKV_key_false (m : List (String × JVal)) (k : String) (v : JVal)
    (p : String × JVal → Bool) (hpk : ∀ w, p (k, w) = false) :
    (insertKV m k v).find? p = m.find? p := by
  induction m with
  | nil => simp [insertKV, List.find?, hpk]
  | cons kv rest ih =>
    obtain ⟨k1, w1⟩ := kv
    by_cases h1 : k1 = k
    · subst h1
      simp [insertKV, List.find?, hpk]
    · simp [insertKV, h1, List.find?]
      cases hp : p (k1, w1) with
      | true => simp [hp]
      | false => simp [hp, ih]

theorem lastMatch_insertKV_unmatched (m : List (String × JVal)) (k : String) (jv : JVal)
    (tag : String) (hk : matchTag k = none) :
    lastMatch (insertKV m k jv) tag = lastMatch m tag := by
  have hkne : matchTag k ≠ some tag := by rw [hk]; exact Option.noConfusion
  induction m with
  | nil =>
    simp only [insertKV, lastMatch]
    rw [if_neg (fun hc => hkne hc.1)]
  | cons kv rest ih =>
    obtain ⟨k1, w1⟩ := kv
    by_cases h1 : k1 = k
    · subst h1
      simp only [insertKV, lastMatch]
      rw [if_neg (fun hc => hkne hc.1), if_neg (fun hc => hkne hc.1)]
    · simp only [insertKV, if_neg h1, lastMatch, ih]

theorem intFieldVal_insert_unmatched (m : List (String × JVal)) (k : String) (jv : JVal)
    (tag : String) (hk : matchTag k = none) :
    intFieldVal (insertKV m k jv) tag = intFieldVal m tag := by
  unfold intFieldVal
  rw [lastMatch_insertKV_unmatched m k jv tag hk]

theorem strFieldVal_insert_unmatched (m : List (String × JVal)) (k : String) (jv : JVal)
    (tag : String) (hk : matchTag k = none) :
    strFieldVal (insertKV m k jv) tag = strFieldVal m tag := by
  unfold strFieldVal
  rw [lastMatch_insertKV_unmatched m k jv tag hk]

theorem ratFieldVal_insert_unmatched (m : List (String × JVal)) (k : String) (jv : JVal)
    (tag : String) (hk : matchTag k = none) :
    ratFieldVal (insertKV m k jv) tag = ratFieldVal m tag := by
  unfold ratFieldVal
  rw [lastMatch_insertKV_unmatched m k jv tag hk]

theorem unmarshal_insert_unmatched (m : List (String × JVal)) (k v : String)
    (hk : matchTag k = none)
    (hm : ∀ w, (k, w) ∈ m → ∃ s, w = JVal.str s) :
    unmarshalTrackingFilter (insertKV m k (JVal.str v)) = unmarshalTrackingFilter m := by
  unfold unmarshalTrackingFilter
  rw [jsonMarshalOK_insert_str m k v hm,
    find?_insertKV_key_false m k (JVal.str v) _ (by intro w; simp [hk]),
    intFieldVal_insert_unmatched m k _ "page" hk,
    intFieldVal_insert_unmatched m k _ "limit" hk,
    strFieldVal_insert_unmatched m k _ "sort_by" hk,
    strFieldVal_insert_unmatched m k _ "sort_order" hk,
    strFieldVal_insert_unmatched m k _ "vehicle_id" hk,
    strFieldVal_insert_unmatched m k _ "location" hk,
    ratFieldVal_insert_unmatched m k _ "mileage" hk,
    strFieldVal_insert_unmatched m k _ "status" hk,
    strFieldVal_insert_unmatched m k _ "fuel_condition" hk]

/-! ### Composition lemmas along the query path -/

theorem findQuery_err_of_dataMap (q : List (String × String))
    (h : isErrE (buildDataMap q []) = true) :
    isErrE (findTrackingDataQuery q) = true := by
  unfold findTrackingDataQuery buildFilterFromQuery
  cases hd : buildDataMap q [] with
  | error e => rfl
  | ok d =>
    rw [hd] at h
    simp [isErrE] at h

theorem findQuery_err_of_unmarshalErr (q : List (String × String)) (d : List (String × JVal))
    (h1 : buildDataMap q [] = Except.ok d)
    (h2 : isErrE (unmarshalTrackingFilter d) = true) :
    isErrE (findTrackingDataQuery q) = true := by
  unfold findTrackingDataQuery buildFilterFromQuery
  cases hu : unmarshalTrackingFilter d with
  | error e =>
    simp only [h1, hu, MongoTackingRepository.FindTrackingDataPlan, isErrE]
  | ok f =>
    rw [hu] at h2
    simp [isErrE] at h2

theorem findQuery_err_of_buildErr (q : List (String × String)) (f0 : TrackingFilter)
    (h1 : buildFilterFromQuery q = Except.ok f0)
    (h2 : isErrE f0.Build = true) :
    isErrE (findTrackingDataQuery q) = true := by
  unfold findTrackingDataQuery MongoTackingRepository.FindTrackingDataPlan
  cases hb : f0.Build with
  | error e => simp only [h1, hb, isErrE]
  | ok f =>
    rw [hb] at h2
    simp [isErrE] at h2

theorem Build_ok_sortField_ne (t f : TrackingFilter) (h : t.Build = Except.ok f) :
    f.SortField ≠ "" := by
  obtain ⟨-, -, hsf, -, -, -, -, -, -⟩ := Build_ok_shape t f h
  rw [hsf]
  simp only [applyDefaults]
  split
  · simp
  · assumption

/-! ### Claim theorems -/

/-- Claim C3: the Filter Builder applies defaults and clamps as specified:
{page: "2", limit: "5"} resolves to page=2 and pageSize=5; {limit: "500"}
resolves to pageSize=100; a bag with no page and no limit resolves to
page=1 and pageSize=10; a bag with no sort parameters (no key that json
field matching, even case-insensitively, assigns to sort_by or sort_order)
resolves the sort field to the creation-timestamp field and the sort order
to ascending. -/
theorem C3_filter_defaults_and_clamps :
    (resolveFilter [("page", "2"), ("limit", "5")]).map (fun f => (f.Page, f.PageSize))
        = Except.ok (2, 5) ∧
    (resolveFilter [("limit", "500")]).map (fun f => f.PageSize) = Except.ok 100 ∧
    (resolveFilter []).map (fun f => (f.Page, f.PageSize)) = Except.ok (1, 10) ∧
    (∀ (q : List (String × String)) (f : TrackingFilter),
      (∀ kv ∈ q, toLowerL (Prod.fst kv).data ≠ "sort_by".data) →
      (∀ kv ∈ q, toLowerL (Prod.fst kv).data ≠ "sort_order".data) →
      resolveFilter q = Except.ok f →
      f.SortField = "created_at" ∧ f.SortOrder = "asc") := by
  refine ⟨by rfl, by rfl, by rfl, ?_⟩
  intro q f hsb hso h
  unfold resolveFilter at h
  cases hb : buildFilterFromQuery q with
  | error e => rw [hb] at h; cases h
  | ok f0 =>
    rw [hb] at h
    unfold buildFilterFromQuery at hb
    cases hd : buildDataMap q [] with
    | error e => rw [hd] at hb; cases hb
    | ok d =>
      rw [hd] at hb
      obtain ⟨-, -, hsf, hsoF, -, -, -, -, -⟩ := unmarshal_ok_fields d f0 hb
      have hnomatch : ∀ (tag : String), (∀ kv ∈ q, toLowerL (Prod.fst kv).data ≠ tag.data) →
          ∀ kv ∈ d, matchTag kv.1 ≠ some tag := by
        intro tag htag kv hkv hmt
        have hfold := (matchTag_eq_some kv.1 tag hmt).2
        rcases buildDataMap_keys_sub q [] d hd kv hkv with hin | hin
        · cases hin
        · obtain ⟨x, hxq, hx1⟩ := List.mem_map.mp hin
          apply htag x hxq
          rw [hx1]
          exact hfold
      have hf0sb : f0.SortField = "" := by
        rw [hsf]
        unfold strFieldVal
        rw [lastMatch_none_of_no_match d "sort_by" (hnomatch "sort_by" hsb)]
      have hf0so : f0.SortOrder = "" := by
        rw [hsoF]
        unfold strFieldVal
        rw [lastMatch_none_of_no_match d "sort_order" (hnomatch "sort_order" hso)]
      obtain ⟨-, -, hsf2, hso2, -, -, -, -, -⟩ := Build_ok_shape f0 f h
      constructor
      · rw [hsf2]
        simp [applyDefaults, hf0sb]
      · rw [hso2]
        simp [applyDefaults, hf0so]

/-- Witness for C3's universally quantified sort-default conjunct, at the
concrete bag [("page", "3")]. -/
theorem C3_witness :
    resolveFilter [("page", "3")] = Except.ok
      { Page := 3, PageSize := 10, SortField := "created_at", SortOrder := "asc" } ∧
    ({ Page := 3, PageSize := 10, SortField := "created_at", SortOrder := "asc" }
        : TrackingFilter).SortField = "created_at" ∧
    ({ Page := 3, PageSize := 10, SortField := "created_at", SortOrder := "asc" }
        : TrackingFilter).SortOrder = "asc" := by
  refine ⟨by rfl, ?_, ?_⟩
  · exact (C3_filter_defaults_and_clamps.2.2.2 [("page", "3")] _
      (by decide) (by decide) (by rfl)).1
  · exact (C3_filter_defaults_and_clamps.2.2.2 [("page", "3")] _
      (by decide) (by decide) (by rfl)).2

/-- Claim C4 counterexample: the bag {page: "-5"} builds successfully and the
resolved filter has page = -5, which violates the claimed invariant
page ≥ 1 (negative page and limit values are passed through unclamped by
`TrackingFilter.Build`). -/
theorem C4_counterexample :
    (resolveFilter [("page", "-5")]).map (fun f => f.Page) = Except.ok (-5) ∧
    ¬ (1 ≤ (-5 : Int)) := ⟨by rfl, by decide⟩

/-- Claim C4 (amended): for every raw parameter bag on which the filter build
succeeds and whose parsed page and limit values are non-negative (as they
are whenever the parameters are absent or carry non-negative integers),
the resolved filter satisfies page ≥ 1 and 1 ≤ pageSize ≤ 100; a bag
supplying a negative page or limit builds successfully with the negative
value passed through unclamped. -/
theorem C4_amended (q : List (String × String)) (f0 f : TrackingFilter)
    (h1 : buildFilterFromQuery q = Except.ok f0)
    (h2 : 0 ≤ f0.Page) (h3 : 0 ≤ f0.PageSize)
    (h4 : f0.Build = Except.ok f) :
    resolveFilter q = Except.ok f ∧ 1 ≤ f.Page ∧ 1 ≤ f.PageSize ∧ f.PageSize ≤ 100 := by
  obtain ⟨hp, hps, -, -, -, -, -, -, -⟩ := Build_ok_shape f0 f h4
  refine ⟨?_, ?_, ?_, ?_⟩
  · unfold resolveFilter
    rw [h1]
    exact h4
  · rw [hp]
    simp only [applyDefaults]
    split <;> omega
  · rw [hps]
    simp only [applyDefaults]
    split <;> split <;> omega
  · rw [hps]
    simp only [applyDefaults]
    split <;> split <;> omega

/-- Witness for C4 (amended) at the bag {page: "2", limit: "500"}: the
resolved page is 2 and the page size is clamped to 100. -/
theorem C4_witness :
    resolveFilter [("page", "2"), ("limit", "500")] = Except.ok
      { Page := 2, PageSize := 100, SortField := "created_at", SortOrder := "asc" } ∧
    1 ≤ ({ Page := 2, PageSize := 100, SortField := "created_at", SortOrder := "asc" }
        : TrackingFilter).Page ∧
    1 ≤ ({ Page := 2, PageSize := 100, SortField := "created_at", SortOrder := "asc" }
        : TrackingFilter).PageSize ∧
    ({ Page := 2, PageSize := 100, SortField := "created_at", SortOrder := "asc" }
        : TrackingFilter).PageSize ≤ 100 :=
  C4_amended [("page", "2"), ("limit", "500")] { Page := 2, PageSize := 500 } _
    (by rfl) (by decide) (by decide) (by rfl)

/-- Claim C8: for every submission that fails validation, `TrackVehicle`
returns the validation error unchanged and the store is not touched: no
create operation is invoked, so no record is persisted. -/
theorem C8_validation_failure_no_store {Req TD : Type}
    (validate : Req → Except Err Unit) (toTrackingData : Req → Except Err TD)
    (create : TD → Except Err Unit) (req : Req) (e : Err)
    (h : validate req = Except.error e) :
    TrackVehicle validate toTrackingData create req = (Except.error e, []) := by
  unfold TrackVehicle
  rw [h]

/-- Witness for C8: a submission whose validation fails with a validation
error yields that error and an empty list of create invocations. -/
theorem C8_witness :
    TrackVehicle (fun _ : Unit => Except.error (Err.validation "negative mileage"))
      (fun _ : Unit => Except.ok ()) (fun _ : Unit => Except.ok ()) ()
      = (Except.error (Err.validation "negative mileage"), []) :=
  C8_validation_failure_no_store _ _ _ () (Err.validation "negative mileage") rfl

/-- Claim C9: the query endpoint responds 405 to every non-GET request, 400
when the service (filter build/validation) fails, 404 when the query
succeeds with zero results, and 200 with a success envelope carrying the
data and a message when the result is non-empty. -/
theorem C9_handler_statuses :
    (∀ (m : String) (r : Except Err (List TrackingData)), m ≠ "GET" →
      V1FindTrackingData m r = HandlerResponse.methodNotAllowed ∧
      (V1FindTrackingData m r).status = 405) ∧
    (∀ e : Err, V1FindTrackingData "GET" (Except.error e) = HandlerResponse.badRequest e ∧
      (V1FindTrackingData "GET" (Except.error e)).status = 400) ∧
    (V1FindTrackingData "GET" (Except.ok []) = HandlerResponse.notFound ∧
      (V1FindTrackingData "GET" (Except.ok [])).status = 404) ∧
    (∀ (d : TrackingData) (l : List TrackingData),
      V1FindTrackingData "GET" (Except.ok (d :: l))
          = HandlerResponse.success (d :: l) "successfully fetched tracking data" ∧
      (V1FindTrackingData "GET" (Except.ok (d :: l))).status = 200) := by
  refine ⟨?_, ?_, ⟨by rfl, by rfl⟩, ?_⟩
  · intro m r h
    constructor
    · simp [V1FindTrackingData, h]
    · simp [V1FindTrackingData, h, HandlerResponse.status]
  · intro e
    exact ⟨by rfl, by rfl⟩
  · intro d l
    constructor
    · simp [V1FindTrackingData, HandlerResponse.status]
    · simp [V1FindTrackingData, HandlerResponse.status]

/-- Witness for C9 at concrete inputs: a POST is answered 405, a service
error 400, and a singleton result 200. -/
theorem C9_witness :
    V1FindTrackingData "POST" (Except.ok []) = HandlerResponse.methodNotAllowed ∧
    (V1FindTrackingData "POST" (Except.ok [])).status = 405 ∧
    (V1FindTrackingData "GET" (Except.error Err.invalidID)).status = 400 ∧
    (V1FindTrackingData "GET" (Except.ok [{}])).status = 200 := by
  refine ⟨?_, ?_, ?_, ?_⟩
  · exact (C9_handler_statuses.1 "POST" (Except.ok []) (by decide)).1
  · exact (C9_handler_statuses.1 "POST" (Except.ok []) (by decide)).2
  · exact (C9_handler_statuses.2.1 Err.invalidID).2
  · exact (C9_handler_statuses.2.2.2 {} []).2

/-- Claim C1: for every delivery whose body decodes and whose track call
succeeds, the consumer republishes the original body byte-identical with
content type application/json, positively acknowledges the delivery, and
the acknowledgment is the same for every republish outcome (a publish
failure never prevents or alters the positive acknowledgment). -/
theorem C1_success_republish_and_ack {Req : Type}
    (decode : List Nat → Option Req) (track : Req → Except Err Unit)
    (publishOutcome : Except Err Unit) (msg : Delivery) (req : Req)
    (hdec : decode msg.body = some req) (htrk : track req = Except.ok ()) :
    (consumeOne decode track publishOutcome msg).published
        = some { contentType := applicationJSON, body := msg.body } ∧
    (consumeOne decode track publishOutcome msg).acks = [AckAction.ack] ∧
    (∀ publishOutcome2 : Except Err Unit,
      (consumeOne decode track publishOutcome2 msg).acks
        = (consumeOne decode track publishOutcome msg).acks) := by
  refine ⟨?_, ?_, ?_⟩
  · simp only [consumeOne, hdec, htrk]
  · simp only [consumeOne, hdec, htrk]
  · intro p2
    simp only [consumeOne, hdec, htrk]

/-- Witness for C1: a decodable delivery with a successful track call and a
FAILING publish outcome is still republished (in the model: the publishing
record is produced) and positively acknowledged. -/
theorem C1_witness :
    (consumeOne (fun _ => some 0) (fun _ : Nat => Except.ok ())
        (Except.error (Err.storage "broker down")) ⟨[1, 2, 3]⟩).published
      = some { contentType := applicationJSON, body := Delivery.body ⟨[1, 2, 3]⟩ } ∧
    (consumeOne (fun _ => some 0) (fun _ : Nat => Except.ok ())
        (Except.error (Err.storage "broker down")) ⟨[1, 2, 3]⟩).acks = [AckAction.ack] ∧
    (∀ publishOutcome2 : Except Err Unit,
      (consumeOne (fun _ => some 0) (fun _ : Nat => Except.ok ()) publishOutcome2 ⟨[1, 2, 3]⟩).acks
        = (consumeOne (fun _ => some 0) (fun _ : Nat => Except.ok ())
            (Except.error (Err.storage "broker down")) ⟨[1, 2, 3]⟩).acks) :=
  C1_success_republish_and_ack (fun _ => some 0) (fun _ => Except.ok ())
    (Except.error (Err.storage "broker down")) ⟨[1, 2, 3]⟩ 0 rfl rfl

/-- Claim C2: a delivery whose body fails to decode is negatively
acknowledged without requeue, never positively acknowledged, never
republished, and the domain service is not invoked (no record persisted);
a delivery whose track call fails is negatively acknowledged without
requeue, never positively acknowledged and never republished. -/
theorem C2_failures_nack_no_requeue {Req : Type}
    (decode : List Nat → Option Req) (track : Req → Except Err Unit)
    (publishOutcome : Except Err Unit) (msg : Delivery) :
    (decode msg.body = none →
      consumeOne decode track publishOutcome msg =
        { trackCalls := [], published := none,
          acks := [AckAction.nack false], publishFailureLogged := false }) ∧
    (∀ (req : Req) (e : Err), decode msg.body = some req → track req = Except.error e →
      consumeOne decode track publishOutcome msg =
        { trackCalls := [req], published := none,
          acks := [AckAction.nack false], publishFailureLogged := false }) := by
  constructor
  · intro h
    simp only [consumeOne, h]
  · intro req e hdec htrk
    simp only [consumeOne, hdec, htrk]

/-- Witness for C2: a non-decoding delivery is nacked without requeue with
no track call and no publication; a delivery whose track call errors is
nacked without requeue with no publication. -/
theorem C2_witness :
    consumeOne (fun _ => (none : Option Nat)) (fun _ => Except.ok ()) (Except.ok ()) ⟨[7]⟩ =
      { trackCalls := [], published := none,
        acks := [AckAction.nack false], publishFailureLogged := false } ∧
    consumeOne (fun _ => some 1) (fun _ : Nat => Except.error Err.invalidID) (Except.ok ()) ⟨[7]⟩ =
      { trackCalls := [1], published := none,
        acks := [AckAction.nack false], publishFailureLogged := false } :=
  ⟨(C2_failures_nack_no_requeue (fun _ => none) (fun _ => Except.ok ()) (Except.ok ()) ⟨[7]⟩).1 rfl,
   (C2_failures_nack_no_requeue (fun _ => some 1) (fun _ => Except.error Err.invalidID)
      (Except.ok ()) ⟨[7]⟩).2 1 Err.invalidID rfl rfl⟩

/-- Claim C10: the sort_order parameter is never validated — whether the
build succeeds does not depend on the sort-order string — and the find
query sorts descending (direction -1) exactly when the resolved sort order
equals "desc"; every other value is treated as ascending (direction 1)
rather than rejected. -/
theorem C10_sort_order_never_validated :
    (∀ (f : TrackingFilter) (s1 s2 : String),
      isOkE (TrackingFilter.Build { f with SortOrder := s1 })
        = isOkE (TrackingFilter.Build { f with SortOrder := s2 })) ∧
    (∀ (f f' : TrackingFilter), f.Build = Except.ok f' →
      MongoTackingRepository.FindTrackingDataPlan f = Except.ok (planOfResolved f') ∧
      (planOfResolved f').sort
          = some (f'.SortField, if f'.SortOrder = "desc" then -1 else 1) ∧
      ((if f'.SortOrder = "desc" then (-1 : Int) else 1) = -1 ↔ f'.SortOrder = "desc")) := by
  constructor
  · intro f s1 s2
    rw [Build_isOk_eq, Build_isOk_eq]
  · intro f f' h
    refine ⟨?_, ?_, ?_⟩
    · unfold MongoTackingRepository.FindTrackingDataPlan
      rw [h]
    · have hne := Build_ok_sortField_ne f f' h
      simp [planOfResolved, hne]
    · by_cases hd : f'.SortOrder = "desc"
      · simp [hd]
      · simp [hd]

/-- Witness for C10 at a filter whose sort order is the invalid string
"DESC": the build succeeds and the plan sorts ascending (direction 1). -/
theorem C10_witness :
    MongoTackingRepository.FindTrackingDataPlan { SortOrder := "DESC" } = Except.ok
      (planOfResolved { Page := 1, PageSize := 10, SortField := "created_at", SortOrder := "DESC" }) ∧
    (planOfResolved { Page := 1, PageSize := 10, SortField := "created_at", SortOrder := "DESC" }).sort
      = some (TrackingFilter.SortField { Page := 1, PageSize := 10, SortField := "created_at", SortOrder := "DESC" },
        if TrackingFilter.SortOrder { Page := 1, PageSize := 10, SortField := "created_at", SortOrder := "DESC" } = "desc" then -1 else 1) ∧
    ((if TrackingFilter.SortOrder { Page := 1, PageSize := 10, SortField := "created_at", SortOrder := "DESC" } = "desc" then (-1 : Int) else 1) = -1 ↔
      TrackingFilter.SortOrder { Page := 1, PageSize := 10, SortField := "created_at", SortOrder := "DESC" } = "desc") :=
  C10_sort_order_never_validated.2 { SortOrder := "DESC" }
    { Page := 1, PageSize := 10, SortField := "created_at", SortOrder := "DESC" } (by rfl)

theorem reFragMatch_of_noMeta :
    ∀ (lit s : List Char), lit.all (fun c => ¬ c ∈ regexMeta) = true →
      reFragMatch lit s = List.isPrefixOf (toLowerL lit) (toLowerL s)
  | [], s, _ => by cases s <;> simp [reFragMatch, toLowerL, List.isPrefixOf]
  | c :: p, s, h => by
    simp only [List.all_cons, Bool.and_eq_true] at h
    have hcdot : c ≠ '.' := by
      intro he
      subst he
      simp [regexMeta] at h
    cases s with
    | nil => simp [reFragMatch, toLowerL, List.isPrefixOf]
    | cons d s2 =>
      simp only [reFragMatch, if_neg hcdot, toLowerL, List.map_cons, List.isPrefixOf]
      by_cases hcd : c.toLower = d.toLower
      · have := reFragMatch_of_noMeta p s2 h.2
        simp [hcd, this, toLowerL]
      · have hb : (c.toLower == d.toLower) = false := beq_eq_false_iff_ne.mpr hcd
        simp [if_neg hcd, hb]

theorem wrapInt64_eq_self (n : Int) (h1 : -(2 ^ 63) ≤ n) (h2 : n ≤ 2 ^ 63 - 1) :
    wrapInt64 n = n := by
  unfold wrapInt64
  omega

/-- Claim C7 counterexample: the claim's pagination formula and "location by
case-insensitive prefix match" both fail on the code.  The page value
9223372036854775807 (accepted by Atoi) yields skip = -20 under Go's
wrapping 64-bit arithmetic, not (page-1)*pageSize; and the location "a.c"
(regex metacharacter unescaped) makes the store predicate match the
document location "aXc", which does not have "a.c" as a case-insensitive
prefix. -/
theorem C7_counterexample :
    (findTrackingDataQuery [("page", "9223372036854775807")]).map (fun p => p.skip)
        = Except.ok (-20) ∧
    ¬ ((-20 : Int) = ((9223372036854775807 : Int) - 1) * 10) ∧
    (findTrackingDataQuery [("location", "a.c")]).map
        (fun p => planMatches p { location := "aXc" }) = Except.ok true ∧
    List.isPrefixOf (toLowerL "a.c".data) (toLowerL "aXc".data) = false :=
  ⟨by rfl, by decide, by rfl, by rfl⟩

/-- Claim C7 (amended): the store find builds its predicate as the
conjunction of exactly the present (non-default) filter fields — vehicle
id by identifier equality, location by the case-insensitive anchored regex
`^location` with metacharacters unescaped (coinciding with
case-insensitive prefix match whenever the location contains no regex
metacharacter), mileage as an inclusive lower bound, status and fuel
condition by equality, absent fields imposing no constraint — applies the
sort field as supplied (no whitelist) with direction -1 for "desc" and 1
otherwise, and paginates with skip = (page−1)×pageSize computed in Go's
wrapping 64-bit integer arithmetic (equal to the mathematical product
whenever page−1 and the product fit in int64) and limit = pageSize, both
after defaulting. -/
theorem C7_amended (f f' : TrackingFilter) (e : TrackingData)
    (h : f.Build = Except.ok f') :
    MongoTackingRepository.FindTrackingDataPlan f = Except.ok (planOfResolved f') ∧
    (planMatches (planOfResolved f') e = true ↔
      ((f'.VehicleID ≠ "" → e.vehicleID = f'.vehicleID) ∧
       (f'.Location ≠ "" → anchoredCIMatch ("^" ++ f'.Location) e.location = true) ∧
       (f'.Mileage ≠ 0 → f'.Mileage ≤ e.mileage) ∧
       (f'.Status ≠ "" → e.status = f'.Status) ∧
       (f'.FuelCondition ≠ "" → e.fuelCondition = f'.FuelCondition))) ∧
    (noRegexMeta f'.Location = true →
      anchoredCIMatch ("^" ++ f'.Location) e.location
        = List.isPrefixOf (toLowerL f'.Location.data) (toLowerL e.location.data)) ∧
    (planOfResolved f').sort
        = some (f'.SortField, if f'.SortOrder = "desc" then -1 else 1) ∧
    (planOfResolved f').skip = wrapInt64 (wrapInt64 (f'.Page - 1) * f'.PageSize) ∧
    (-(2 ^ 63) ≤ f'.Page - 1 → f'.Page - 1 ≤ 2 ^ 63 - 1 →
      -(2 ^ 63) ≤ (f'.Page - 1) * f'.PageSize → (f'.Page - 1) * f'.PageSize ≤ 2 ^ 63 - 1 →
      (planOfResolved f').skip = (f'.Page - 1) * f'.PageSize) ∧
    (planOfResolved f').limit = f'.PageSize := by
  refine ⟨?_, ?_, ?_, ?_, by rfl, ?_, by rfl⟩
  · unfold MongoTackingRepository.FindTrackingDataPlan
    rw [h]
  · simp only [planMatches, planOfResolved, optHolds]
    by_cases h1 : f'.VehicleID = "" <;> by_cases h2 : f'.Location = "" <;>
      by_cases h3 : f'.Mileage = 0 <;> by_cases h4 : f'.Status = "" <;>
        by_cases h5 : f'.FuelCondition = "" <;>
          simp [h1, h2, h3, h4, h5] <;> tauto
  · intro hmeta
    unfold anchoredCIMatch
    rw [show ("^" ++ f'.Location).data = '^' :: f'.Location.data by simp [String.data_append]]
    exact reFragMatch_of_noMeta f'.Location.data e.location.data
      (by simpa [noRegexMeta] using hmeta)
  · have hne := Build_ok_sortField_ne f f' h
    simp [planOfResolved, hne]
  · intro hp1 hp2 hm1 hm2
    show wrapInt64 (wrapInt64 (f'.Page - 1) * f'.PageSize) = (f'.Page - 1) * f'.PageSize
    rw [wrapInt64_eq_self (f'.Page - 1) hp1 hp2]
    exact wrapInt64_eq_self _ hm1 hm2

/-- Witness for C7 (amended) at `sampleFilter` / `sampleResolved` /
`sampleEvent` (metacharacter-free location, small page). -/
theorem C7_witness :
    MongoTackingRepository.FindTrackingDataPlan sampleFilter
        = Except.ok (planOfResolved sampleResolved) ∧
    (planMatches (planOfResolved sampleResolved) sampleEvent = true ↔
      ((sampleResolved.VehicleID ≠ "" → sampleEvent.vehicleID = sampleResolved.vehicleID) ∧
       (sampleResolved.Location ≠ "" →
         anchoredCIMatch ("^" ++ sampleResolved.Location) sampleEvent.location = true) ∧
       (sampleResolved.Mileage ≠ 0 → sampleResolved.Mileage ≤ sampleEvent.mileage) ∧
       (sampleResolved.Status ≠ "" → sampleEvent.status = sampleResolved.Status) ∧
       (sampleResolved.FuelCondition ≠ "" →
         sampleEvent.fuelCondition = sampleResolved.FuelCondition))) ∧
    (noRegexMeta sampleResolved.Location = true →
      anchoredCIMatch ("^" ++ sampleResolved.Location) sampleEvent.location
        = List.isPrefixOf (toLowerL sampleResolved.Location.data)
            (toLowerL sampleEvent.location.data)) ∧
    (planOfResolved sampleResolved).sort
        = some (sampleResolved.SortField,
            if sampleResolved.SortOrder = "desc" then -1 else 1) ∧
    (planOfResolved sampleResolved).skip
        = wrapInt64 (wrapInt64 (sampleResolved.Page - 1) * sampleResolved.PageSize) ∧
    (-(2 ^ 63) ≤ sampleResolved.Page - 1 → sampleResolved.Page - 1 ≤ 2 ^ 63 - 1 →
      -(2 ^ 63) ≤ (sampleResolved.Page - 1) * sampleResolved.PageSize →
      (sampleResolved.Page - 1) * sampleResolved.PageSize ≤ 2 ^ 63 - 1 →
      (planOfResolved sampleResolved).skip
        = (sampleResolved.Page - 1) * sampleResolved.PageSize) ∧
    (planOfResolved sampleResolved).limit = sampleResolved.PageSize :=
  C7_amended sampleFilter sampleResolved sampleEvent (by rfl)

theorem matchTag_ne_special (k : String) (hk : matchTag k = none) :
    k ≠ "page" ∧ k ≠ "limit" ∧ k ≠ "mileage" := by
  refine ⟨?_, ?_, ?_⟩ <;> intro he <;> subst he <;> exact absurd hk (by decide)

theorem buildFilter_append_unmatched (q : List (String × String)) (k v : String)
    (hk : matchTag k = none) :
    buildFilterFromQuery (q ++ [(k, v)]) = buildFilterFromQuery q := by
  obtain ⟨hk1, hk2, hk3⟩ := matchTag_ne_special k hk
  unfold buildFilterFromQuery
  rw [buildDataMap_append]
  cases hd : buildDataMap q [] with
  | error e => rfl
  | ok d =>
    have hst : strTyped d :=
      strTyped_buildDataMap q [] d (by intro k1 w h1; cases h1) hd
    have hone : buildDataMap [(k, v)] d = Except.ok (insertKV d k (JVal.str v)) := by
      simp only [buildDataMap, addQueryParam]
      rw [if_neg (by push_neg; exact ⟨hk1, hk2⟩), if_neg hk3]
    show (match buildDataMap [(k, v)] d with
        | Except.error e => Except.error e
        | Except.ok data => unmarshalTrackingFilter data)
      = unmarshalTrackingFilter d
    rw [hone]
    exact unmarshal_insert_unmatched d k v hk
      (fun w hw => hst k w hw hk1 hk2 hk3)

/-- Claim C6 counterexample: the key "Limit" is not one of the recognized
filter keys, yet extending the empty bag with Limit=5 makes the build fail
(json field matching is case-insensitive, so the string "5" is decoded
into the int page-size field), refuting "unrecognized parameters are
silently ignored and never cause an error". -/
theorem C6_counterexample :
    ("Limit" ∉ recognizedKeys) ∧
    isOkE (resolveFilter []) = true ∧
    isErrE (resolveFilter ([] ++ [("Limit", "5")])) = true :=
  ⟨by decide, by rfl, by rfl⟩

/-- Claim C6 (amended): for every parameter bag, every key that matches no
recognized filter key even case-insensitively, and every string value,
building the filter from the extended bag succeeds exactly when building
from the original bag succeeds (with the same error otherwise), yields the
same resolved filter, and sends the same query to the store; a key that
matches a recognized key only up to case is not ignored — it is decoded
into the matched field (and fails the build on the numeric fields). -/
theorem C6_amended (q : List (String × String)) (k v : String)
    (hk : matchTag k = none) :
    resolveFilter (q ++ [(k, v)]) = resolveFilter q ∧
    findTrackingDataQuery (q ++ [(k, v)]) = findTrackingDataQuery q := by
  constructor
  · unfold resolveFilter
    rw [buildFilter_append_unmatched q k v hk]
  · unfold findTrackingDataQuery
    rw [buildFilter_append_unmatched q k v hk]

/-- Witness for C6 (amended): appending debug=true (a key matching no tag,
even case-insensitively) to the bag {page: "2"} changes neither the
resolved filter nor the query. -/
theorem C6_witness :
    resolveFilter ([("page", "2")] ++ [("debug", "true")]) = resolveFilter [("page", "2")] ∧
    findTrackingDataQuery ([("page", "2")] ++ [("debug", "true")])
      = findTrackingDataQuery [("page", "2")] :=
  C6_amended [("page", "2")] "debug" "true" (by rfl)

/-- Claim C5 counterexample: the bag {status: ""} supplies a status parameter
that is not one of the enumerated values, yet the build succeeds and the
store is queried — `Build` treats an empty string as the field being
absent, so only nonempty invalid values fail the build. -/
theorem C5_counterexample :
    vehicleStatusValid "" = false ∧
    resolveFilter [("status", "")]
      = Except.ok { Page := 1, PageSize := 10, SortField := "created_at", SortOrder := "asc" } ∧
    isErrE (findTrackingDataQuery [("status", "")]) = false :=
  ⟨by decide, by rfl, by rfl⟩

/-- Claim C5 (amended): for a parameter bag with distinct keys, the build
fails with an error — and the query path returns it without querying the
store (no query plan is produced) — whenever the page or limit parameter
does not parse as an integer, the mileage parameter does not parse as a
floating-point number, a NONEMPTY vehicle_id parameter is not a valid hex
identifier, or a NONEMPTY status or fuel_condition parameter is not one of
its enumerated values (an empty string value is treated as the parameter
being absent). -/
theorem C5_build_failures (q : List (String × String)) (hnd : (q.map Prod.fst).Nodup) :
    (∀ k v, (k = "page" ∨ k = "limit") → (k, v) ∈ q → goAtoi v = none →
      isErrE (findTrackingDataQuery q) = true) ∧
    (∀ v, ("mileage", v) ∈ q → goParseFloat v = none →
      isErrE (findTrackingDataQuery q) = true) ∧
    (∀ v, ("vehicle_id", v) ∈ q → v ≠ "" → objectIDFromHex v = none →
      isErrE (findTrackingDataQuery q) = true) ∧
    (∀ v, ("status", v) ∈ q → v ≠ "" → vehicleStatusValid v = false →
      isErrE (findTrackingDataQuery q) = true) ∧
    (∀ v, ("fuel_condition", v) ∈ q → v ≠ "" → fuelConditionValid v = false →
      isErrE (findTrackingDataQuery q) = true) := by
  refine ⟨?_, ?_, ?_, ?_, ?_⟩
  · intro k v hk hmem hbad
    exact findQuery_err_of_dataMap q (buildDataMap_err_of_badInt q k v hk hmem hbad [])
  · intro v hmem hbad
    exact findQuery_err_of_dataMap q (buildDataMap_err_of_badFloat q v hmem hbad [])
  · intro v hmem hne hbad
    cases hd : buildDataMap q [] with
    | error e => exact findQuery_err_of_dataMap q (by rw [hd]; rfl)
    | ok d =>
      have hlk : List.lookup "vehicle_id" d = some (JVal.str v) :=
        buildDataMap_lookup_mem q "vehicle_id" v hnd hmem
          (by decide) (by decide) (by decide) [] d hd
      have hmemd : ("vehicle_id", JVal.str v) ∈ d := mem_of_lookup_some d "vehicle_id" (JVal.str v) hlk
      have hdnodup : (d.map Prod.fst).Nodup :=
        keys_nodup_buildDataMap q [] d (by simp) hd
      cases hu : unmarshalTrackingFilter d with
      | error e => exact findQuery_err_of_unmarshalErr q d hd (by rw [hu]; rfl)
      | ok f0 =>
        obtain ⟨-, -, -, -, hvid, -, -, -, -⟩ := unmarshal_ok_fields d f0 hu
        have hfv : f0.VehicleID = v := by
          rw [hvid]
          exact strFieldVal_of_exact d "vehicle_id" v (by decide) hmemd hdnodup
        have hb : isErrE f0.Build = true := by
          rw [isErrE_eq_not_isOkE, Build_isOk_eq]
          simp [hfv, hne, hbad]
        refine findQuery_err_of_buildErr q f0 ?_ hb
        unfold buildFilterFromQuery
        rw [hd]
        exact hu
  · intro v hmem hne hbad
    cases hd : buildDataMap q [] with
    | error e => exact findQuery_err_of_dataMap q (by rw [hd]; rfl)
    | ok d =>
      have hlk : List.lookup "status" d = some (JVal.str v) :=
        buildDataMap_lookup_mem q "status" v hnd hmem
          (by decide) (by decide) (by decide) [] d hd
      have hmemd : ("status", JVal.str v) ∈ d := mem_of_lookup_some d "status" (JVal.str v) hlk
      have hdnodup : (d.map Prod.fst).Nodup :=
        keys_nodup_buildDataMap q [] d (by simp) hd
      cases hu : unmarshalTrackingFilter d with
      | error e => exact findQuery_err_of_unmarshalErr q d hd (by rw [hu]; rfl)
      | ok f0 =>
        obtain ⟨-, -, -, -, -, -, -, hst, -⟩ := unmarshal_ok_fields d f0 hu
        have hfv : f0.Status = v := by
          rw [hst]
          exact strFieldVal_of_exact d "status" v (by decide) hmemd hdnodup
        have hb : isErrE f0.Build = true := by
          rw [isErrE_eq_not_isOkE, Build_isOk_eq]
          simp [hfv, hne, hbad]
        refine findQuery_err_of_buildErr q f0 ?_ hb
        unfold buildFilterFromQuery
        rw [hd]
        exact hu
  · intro v hmem hne hbad
    cases hd : buildDataMap q [] with
    | error e => exact findQuery_err_of_dataMap q (by rw [hd]; rfl)
    | ok d =>
      have hlk : List.lookup "fuel_condition" d = some (JVal.str v) :=
        buildDataMap_lookup_mem q "fuel_condition" v hnd hmem
          (by decide) (by decide) (by decide) [] d hd
      have hmemd : ("fuel_condition", JVal.str v) ∈ d := mem_of_lookup_some d "fuel_condition" (JVal.str v) hlk
      have hdnodup : (d.map Prod.fst).Nodup :=
        keys_nodup_buildDataMap q [] d (by simp) hd
      cases hu : unmarshalTrackingFilter d with
      | error e => exact findQuery_err_of_unmarshalErr q d hd (by rw [hu]; rfl)
      | ok f0 =>
        obtain ⟨-, -, -, -, -, -, -, -, hfc⟩ := unmarshal_ok_fields d f0 hu
        have hfv : f0.FuelCondition = v := by
          rw [hfc]
          exact strFieldVal_of_exact d "fuel_condition" v (by decide) hmemd hdnodup
        have hb : isErrE f0.Build = true := by
          rw [isErrE_eq_not_isOkE, Build_isOk_eq]
          simp [hfv, hne, hbad]
        refine findQuery_err_of_buildErr q f0 ?_ hb
        unfold buildFilterFromQuery
        rw [hd]
        exact hu

/-- Witness for C5 (amended) at concrete bags: a non-integer page, a
non-numeric mileage, an invalid vehicle id, a bogus status and a bogus
fuel condition each make the query path fail before the store. -/
theorem C5_witness :
    isErrE (findTrackingDataQuery [("page", "x")]) = true ∧
    isErrE (findTrackingDataQuery [("mileage", "12q")]) = true ∧
    isErrE (findTrackingDataQuery [("vehicle_id", "not-a-valid-id")]) = true ∧
    isErrE (findTrackingDataQuery [("status", "bogus")]) = true ∧
    isErrE (findTrackingDataQuery [("fuel_condition", "overfull")]) = true :=
  ⟨(C5_build_failures [("page", "x")] (by decide)).1 "page" "x"
      (Or.inl rfl) (by decide) (by rfl),
   (C5_build_failures [("mileage", "12q")] (by decide)).2.1 "12q" (by decide) (by rfl),
   (C5_build_failures [("vehicle_id", "not-a-valid-id")] (by decide)).2.2.1 "not-a-valid-id"
      (by decide) (by decide) (by rfl),
   (C5_build_failures [("status", "bogus")] (by decide)).2.2.2.1 "bogus"
      (by decide) (by decide) (by decide),
   (C5_build_failures [("fuel_condition", "overfull")] (by decide)).2.2.2.2 "overfull"
      (by decide) (by decide) (by decide)⟩
